import Mathlib

/-!
Shallow embedding of the `go-ico` repository (package `ico` in `ico.go` and
package `bmp` in `internal/bmp/decode.go`), together with theorems checking
the natural-language specification's claims against it.

Conventions of the embedding:
* A byte stream is a `List Nat`; genuine inputs have every element `< 256`
  (stated as a hypothesis where a theorem needs it).
* Go's little-endian field reads (`binary.Read`) become `rd16`/`rd32` applied
  to a dropped suffix of the stream; field writes (`binary.Write`) become
  `le16`/`le32`.  Signed 32/16-bit interpretation is `toInt32`/`toInt16`;
  wrapping signed 32-bit arithmetic is `wrap32`.
* Fallible Go code returns `Except Err`; a Go runtime fault (slice index out
  of range, failed type assertion) is modelled as the distinguished error
  value `Err.panicOOB`, which no Go caller can receive as a returned `error`.
* Go loops that fill a pixel buffer row by row are modelled structurally:
  the image is a list of rows, top to bottom (row `y` of the image is entry
  `y` of the list), and the bottom-up write order of the source becomes a
  `List.reverse` of the rows in stored order.
-/

namespace GoIco

/-- Little-endian serialization of the low 16 bits of a natural number,
as written by `binary.Write(bb, binary.LittleEndian, int16/uint16)`. -/
def le16 (n : Nat) : List Nat := [n % 256, n / 256 % 256]

/-- Little-endian serialization of the low 32 bits of a natural number,
as written by `binary.Write(bb, binary.LittleEndian, int32/uint32)`. -/
def le32 (n : Nat) : List Nat :=
  [n % 256, n / 256 % 256, n / 65536 % 256, n / 16777216 % 256]

/-- Little-endian 16-bit read of the first two bytes of a stream
(`binary.Read` of a 2-byte field; missing bytes read as 0). -/
def rd16 (b : List Nat) : Nat := b.getD 0 0 + 256 * b.getD 1 0

/-- Little-endian 32-bit read of the first four bytes of a stream
(`binary.Read` of a 4-byte field; missing bytes read as 0). -/
def rd32 (b : List Nat) : Nat :=
  b.getD 0 0 + 256 * b.getD 1 0 + 65536 * b.getD 2 0 + 16777216 * b.getD 3 0

/-- Interpretation of a raw 32-bit value as Go's `int32` (two's complement). -/
def toInt32 (n : Nat) : Int := if n < 2 ^ 31 then (n : Int) else (n : Int) - 2 ^ 32

/-- Interpretation of a raw 16-bit value as Go's `int16` (two's complement). -/
def toInt16 (n : Nat) : Int := if n < 2 ^ 15 then (n : Int) else (n : Int) - 2 ^ 16

/-- Wrapping signed 32-bit arithmetic: reduce an integer into
`[-2^31, 2^31)`, as Go `int32` addition/subtraction/negation does. -/
def wrap32 (i : Int) : Int := (i + 2 ^ 31) % 2 ^ 32 - 2 ^ 31

/-- Errors and faults the embedded code can stop with.  Value-level Go
errors and Go runtime panics are distinguished: `panicOOB` stands for a
runtime fault (slice bounds / index out of range / failed type assertion),
which Go never returns as an `error` value.  The spec's error names map as:
`InvalidContainerHeader` ↦ `invalidType`/`invalidCount`,
`InvalidSignature` ↦ `badSignature`,
`UnsupportedDibHeaderSize` ↦ `unsupportedDibSize`,
`InvalidDimensions` ↦ `invalidWidth`/`invalidHeight`,
`UnsupportedCompression` ↦ `unsupportedCompression`,
`UnsupportedColorDepth` ↦ `unsupportedBpp` (header stage) and
`bppNotImplemented` (pixel-decode stage),
`TruncatedData` ↦ `truncatedRow` (pixel rows) and `eof` (short header reads). -/
inductive Err where
  | invalidType
  | invalidCount
  | eof
  | invalidWidth
  | invalidHeight
  | badSignature
  | unsupportedDibSize
  | unsupportedCompression
  | unsupportedBpp
  | bppNotImplemented
  | truncatedRow
  | panicOOB
deriving DecidableEq, Repr

/-- Decidable equality on `Except`, so concrete runs of the embedded code
can be checked by `decide`. -/
instance {ε α : Type} [DecidableEq ε] [DecidableEq α] :
    DecidableEq (Except ε α) := fun
  | .error e, .error f =>
    if h : e = f then .isTrue (by rw [h]) else .isFalse (by simp [h])
  | .error _, .ok _ => .isFalse (by simp)
  | .ok _, .error _ => .isFalse (by simp)
  | .ok a, .ok b =>
    if h : a = b then .isTrue (by rw [h]) else .isFalse (by simp [h])

/-! ## Container parser (`ico.go`: `header`, `readHeader`, `directory`,
`readDirectoris`) -/

/-- `type header struct { Reserved, ImageType, Count int16 }`, raw field
values (each the unsigned 16-bit pattern). -/
structure Header where
  reserved : Nat
  imageType : Nat
  count : Nat
deriving DecidableEq, Repr

/-- The header produced by `binary.Read(r, binary.LittleEndian, &h)` in
`readHeader`: the error is ignored, and `binary.Read` decodes nothing unless
all 6 bytes are available, so a short input leaves the zero value. -/
def parsedHeader (b : List Nat) : Header :=
  if b.length < 6 then ⟨0, 0, 0⟩
  else ⟨rd16 b, rd16 (b.drop 2), rd16 (b.drop 4)⟩

/-- `readHeader` (`ico.go` lines 33-46): validates `ImageType == 1` and
`Count > 0` on the (possibly zero) parsed header. -/
def readHeader (b : List Nat) : Except Err Header :=
  let h := parsedHeader b
  if toInt16 h.imageType ≠ 1 then .error .invalidType
  else if toInt16 h.count ≤ 0 then .error .invalidCount
  else .ok h

/-- `type directory struct { ... }`, raw field values (single bytes and
unsigned 16/32-bit patterns; `Planes`/`BitCount` are `int16` and
`BytesInRes`/`ImageOffset` are `int32` in the source). -/
structure Directory where
  width : Nat
  height : Nat
  colorCount : Nat
  reserved : Nat
  planes : Nat
  bitCount : Nat
  bytesInRes : Nat
  imageOffset : Nat
deriving DecidableEq, Repr

/-- The all-zero `directory` value. -/
def zeroDir : Directory := ⟨0, 0, 0, 0, 0, 0, 0, 0⟩

/-- One 16-byte directory record, fields little-endian. -/
def parseDir (b : List Nat) : Directory :=
  ⟨b.getD 0 0, b.getD 1 0, b.getD 2 0, b.getD 3 0,
   rd16 (b.drop 4), rd16 (b.drop 6), rd32 (b.drop 8), rd32 (b.drop 12)⟩

/-- The slice produced by `binary.Read(r, binary.LittleEndian, ds)` in
`readDirectoris`: `binary.Read` first fills a `size*16`-byte buffer with
`io.ReadFull` and decodes only if that succeeds, so when the input is
shorter than `size*16` bytes nothing is decoded and all entries keep the
zero value. -/
def readDirsPure (b : List Nat) (size : Nat) : List Directory :=
  if b.length < 16 * size then List.replicate size zeroDir
  else (List.range size).map (fun i => parseDir (b.drop (16 * i)))

/-- `readDirectoris` (`ico.go` lines 59-65): ignores the `binary.Read`
error and always returns `nil` as its own error. -/
def readDirectoris (b : List Nat) (size : Nat) : Except Err (List Directory) :=
  .ok (readDirsPure b size)

/-! ## BMP info header (`internal/bmp/decode.go`: `InfoHeader`,
`ReadInfoHeader`) -/

/-- `InfoHeader` raw field values.  `width`/`height` hold the unsigned
32-bit pattern of the `int32` fields. -/
structure InfoHeader where
  size : Nat
  width : Nat
  height : Nat
  planes : Nat
  bitCount : Nat
  compression : Nat
  sizeImage : Nat
  xppm : Nat
  yppm : Nat
  colorUsed : Nat
  colorImportant : Nat
deriving DecidableEq, Repr

/-- `ReadInfoHeader` (`decode.go` lines 57-83): reads the 4-byte `Size`
then the 36 remaining bytes, and validates `Width > 0` and `Height ≠ 0`
(both as `int32`). -/
def ReadInfoHeader (b : List Nat) : Except Err InfoHeader :=
  if b.length < 40 then .error .eof
  else
    let ih : InfoHeader :=
      ⟨rd32 b, rd32 (b.drop 4), rd32 (b.drop 8), rd16 (b.drop 12), rd16 (b.drop 14),
       rd32 (b.drop 16), rd32 (b.drop 20), rd32 (b.drop 24), rd32 (b.drop 28),
       rd32 (b.drop 32), rd32 (b.drop 36)⟩
    if toInt32 ih.width ≤ 0 then .error .invalidWidth
    else if toInt32 ih.height = 0 then .error .invalidHeight
    else .ok ih

/-! ## The header synthesizer (`ico.go`: `newBMPReader`) -/

/-- Palette byte size computed in `newBMPReader` (`ico.go` lines 85-88):
`psize := uint(ih.ColorUsed) * 4`, overridden to `(1 << ih.BitCount) * 4`
when it is zero and the bit depth is below 16. -/
def psizeOf (ih : InfoHeader) : Nat :=
  if ih.colorUsed * 4 = 0 ∧ ih.bitCount < 16 then 2 ^ ih.bitCount * 4
  else ih.colorUsed * 4

/-- Directory width with the `0 ↦ 256` convention (`ico.go` lines 90-94). -/
def icoW (dir : Directory) : Nat := if dir.width = 0 then 256 else dir.width

/-- Directory height with the `0 ↦ 256` convention (`ico.go` lines 98-102). -/
def icoH (dir : Directory) : Nat := if dir.height = 0 then 256 else dir.height

/-- XOR block byte size computed in `newBMPReader` (`ico.go` lines 90-104):
the palette size plus the 4-byte-aligned stride
`w = (w*BitCount + 31) / 32 * 4` times the height. -/
def xorSizeOf (dir : Directory) (ih : InfoHeader) : Nat :=
  psizeOf ih + (icoW dir * ih.bitCount + 31) / 32 * 4 * icoH dir

/-- The raw 32-bit pattern written for `int32(ih.Height / 2)`: Go's `/` on
`int32` truncates toward zero (`Int.tdiv`), and the result is serialized in
two's complement. -/
def halfHeightRaw (heightRaw : Nat) : Nat :=
  ((Int.tdiv (toInt32 heightRaw) 2) % 2 ^ 32).toNat

/-- `newBMPReader` (`ico.go` lines 72-177): parses the payload's info
header, computes palette and XOR block sizes, and synthesizes the XOR and
AND bitmap streams.  `d := data[40:]` is the payload after the 40 header
bytes `ReadInfoHeader` consumed.  `d[:xorSize]` (and `d[xorSize:]`) panic
when `xorSize > len(d)`, modelled by `Err.panicOOB`. -/
def newBMPReader (dir : Directory) (data : List Nat) :
    Except Err (List Nat × List Nat) :=
  match ReadInfoHeader data with
  | .error e => .error e
  | .ok ih =>
    let d := data.drop 40
    let psize := psizeOf ih
    let xorSize := xorSizeOf dir ih
    if d.length < xorSize then .error .panicOOB
    else
      let hh := halfHeightRaw ih.height
      -- XOR stream: BITMAPFILEHEADER, the original BITMAPINFOHEADER fields
      -- with the height halved, then `d[:xorSize]` (palette + XOR pixels).
      let xorS : List Nat :=
        [66, 77] ++ le32 (14 + ih.size + xorSize) ++ le16 0 ++ le16 0 ++
          le32 (14 + ih.size + psize) ++
          (le32 ih.size ++ le32 ih.width ++ le32 hh ++ le16 ih.planes ++
           le16 ih.bitCount ++ le32 ih.compression ++ le32 ih.sizeImage ++
           le32 ih.xppm ++ le32 ih.yppm ++ le32 ih.colorUsed ++
           le32 ih.colorImportant) ++
          d.take xorSize
      -- AND stream: a fresh 40-byte monochrome header, the fixed 2-entry
      -- black/white palette, then `d[xorSize:]`.
      let andSize := 8 + d.length - xorSize
      let andS : List Nat :=
        [66, 77] ++ le32 (14 + 40 + andSize) ++ le16 0 ++ le16 0 ++
          le32 (14 + 40 + 8) ++
          (le32 40 ++ le32 ih.width ++ le32 hh ++ le16 0 ++ le16 1 ++
           le32 0 ++ le32 0 ++ le32 0 ++ le32 0 ++ le32 0 ++ le32 0) ++
          [0, 0, 0, 255, 255, 255, 255, 255] ++
          d.drop xorSize
      .ok (xorS, andS)

/-! ## The bitmap pixel decoder (`internal/bmp/decode.go`) -/

/-- An 8-bit RGBA color (`color.RGBA`-shaped quadruple). -/
structure RGBA8 where
  r : Nat
  g : Nat
  b : Nat
  a : Nat
deriving DecidableEq, Repr

/-- The decoder's color model: an indexed palette (bit depths 1/4/8) or the
direct `color.RGBAModel` (bit depths 16/24/32). -/
inductive ColorModel where
  | palette (cs : List RGBA8)
  | direct
deriving DecidableEq, Repr

/-- `type decoder struct { bpp int; isOpposite bool; config image.Config }`.
`width` is the validated positive width; `height` is the (possibly wrapped)
normalized height as a Go `int`. -/
structure Decoder where
  bpp : Nat
  isOpposite : Bool
  width : Nat
  height : Int
  model : ColorModel
deriving DecidableEq, Repr

/-- `newDecoder` (`decode.go` lines 101-162): file header (signature "BM"),
info header, DIB size ∈ {40,108,124}, top-down normalization
(`ih.Height *= -1` wraps as `int32`, so `-2^31` stays negative),
compression 0, `ColorUsed` defaulting to `1 << BitCount` (as `uint32`), and
the palette read (4 bytes per entry, B/G/R/reserved, alpha forced 255) for
bit depths 1/4/8. -/
def newDecoder (b : List Nat) : Except Err (Decoder × List Nat) :=
  if b.length < 14 then .error .eof
  else if ¬(b.getD 0 0 = 66 ∧ b.getD 1 0 = 77) then .error .badSignature
  else
    match ReadInfoHeader (b.drop 14) with
    | .error e => .error e
    | .ok ih =>
      if ¬(ih.size = 40 ∨ ih.size = 108 ∨ ih.size = 124) then
        .error .unsupportedDibSize
      else
        let h0 := toInt32 ih.height
        let hN : Int := if h0 < 0 then wrap32 (-h0) else h0
        let isOpp : Bool := h0 < 0
        if ih.compression ≠ 0 then .error .unsupportedCompression
        else
          let cu := if ih.colorUsed = 0 then 2 ^ ih.bitCount % 2 ^ 32
                    else ih.colorUsed
          let rest := (b.drop 14).drop 40
          if ih.bitCount = 1 ∨ ih.bitCount = 4 ∨ ih.bitCount = 8 then
            if rest.length < 4 * cu then .error .eof
            else
              let pal := (List.range cu).map (fun i =>
                (⟨rest.getD (4 * i + 2) 0, rest.getD (4 * i + 1) 0,
                  rest.getD (4 * i) 0, 255⟩ : RGBA8))
              .ok (⟨ih.bitCount, isOpp, ih.width, hN, .palette pal⟩,
                   rest.drop (4 * cu))
          else if ih.bitCount = 16 ∨ ih.bitCount = 24 ∨ ih.bitCount = 32 then
            .ok (⟨ih.bitCount, isOpp, ih.width, hN, .direct⟩, rest)
          else .error .unsupportedBpp

/-- A decoded image: an indexed (`image.Paletted`), premultiplied
(`image.RGBA`) or non-premultiplied (`image.NRGBA`) raster.  Rows are
listed top to bottom; a paletted row holds one palette index per pixel, an
RGBA/NRGBA row holds four bytes per pixel (R, G, B, A order — `decode24`
and `decode32` already swap the stored B/R bytes). -/
inductive Img where
  | paletted (w h : Nat) (rows : List (List Nat)) (pal : List RGBA8)
  | rgba (w h : Nat) (rows : List (List Nat))
  | nrgba (w h : Nat) (rows : List (List Nat))
deriving DecidableEq, Repr

/-- Pixel-index unpacking of one 1-bpp row (`decode1`, lines 183-194): byte
`i` yields 8 indices, most significant bit first, written at destination
indices `8i .. 8i+7`.  The destination row has `w` entries, so when
`8*((w+1)/8) > w` (that is, `w % 8 = 7`) the write at index `w` is out of
range — a Go panic.  Destination indices never written keep the zero the
buffer was allocated with. -/
def unpack1 (w : Nat) (row : List Nat) : Except Err (List Nat) :=
  let n := (w + 1) / 8
  if w < 8 * n then .error .panicOOB
  else
    let vals := (List.range n).flatMap (fun i =>
      let v := row.getD i 0
      [v / 128 % 2, v / 64 % 2, v / 32 % 2, v / 16 % 2,
       v / 8 % 2, v / 4 % 2, v / 2 % 2, v % 2])
    .ok (vals ++ List.replicate (w - 8 * n) 0)

/-- Pixel-index unpacking of one 4-bpp row (`decode4`, lines 219-224): byte
`i` yields the high then the low nibble at destination indices `2i, 2i+1`.
When `2*((w+1)/2) > w` (odd `w`) the write at index `w` is out of range — a
Go panic. -/
def unpack4 (w : Nat) (row : List Nat) : Except Err (List Nat) :=
  let n := (w + 1) / 2
  if w < 2 * n then .error .panicOOB
  else
    let vals := (List.range n).flatMap (fun i =>
      let v := row.getD i 0
      [v / 16 % 16, v % 16])
    .ok (vals ++ List.replicate (w - 2 * n) 0)

/-- Pixel-index unpacking of one 8-bpp row (`decode8`, line 252):
`copy(p, row[:w])`. -/
def unpack8 (w : Nat) (row : List Nat) : Except Err (List Nat) :=
  .ok (row.take w)

/-- Pixel unpacking of one 24-bpp row (`decode24`, lines 278-284): pixel
`j` is stored as B, G, R at bytes `3j..3j+2` and becomes R, G, B, 255. -/
def unpack24 (w : Nat) (row : List Nat) : Except Err (List Nat) :=
  .ok ((List.range w).flatMap (fun j =>
    [row.getD (3 * j + 2) 0, row.getD (3 * j + 1) 0, row.getD (3 * j) 0, 255]))

/-- Pixel unpacking of one 32-bpp row (`decode32`, lines 307-310): the row
is read verbatim and bytes 0 and 2 of each pixel are swapped (B,G,R,A to
R,G,B,A); the alpha byte is kept as given. -/
def unpack32 (w : Nat) (row : List Nat) : Except Err (List Nat) :=
  .ok ((List.range w).flatMap (fun j =>
    [row.getD (4 * j + 2) 0, row.getD (4 * j + 1) 0, row.getD (4 * j) 0,
     row.getD (4 * j + 3) 0]))

/-- The shared row loop of `decode1`/`decode4`/`decode8`/`decode24`/
`decode32`: read `stride` bytes per stored row (`io.ReadFull`, failing with
`io.ErrUnexpectedEOF` — the spec's `TruncatedData` — when the input ends
early) and unpack them; `n` rows in stored order. -/
def readUnpackRows (stride : Nat) (up : List Nat → Except Err (List Nat)) :
    Nat → List Nat → Except Err (List (List Nat))
  | 0, _ => .ok []
  | n + 1, input =>
    if input.length < stride then .error .truncatedRow
    else
      match up (input.take stride) with
      | .error e => .error e
      | .ok r =>
        match readUnpackRows stride up n (input.drop stride) with
        | .error e => .error e
        | .ok rs => .ok (r :: rs)

/-- Image rows from stored rows: the row loops write stored row `j` to
image row `y = j` when `isOpposite` (top-down) and to `y = h-1-j` (bottom
up) otherwise, so the image rows are the stored rows, reversed in the
default bottom-up case. -/
def arrangeRows (isOpp : Bool) (rs : List (List Nat)) : List (List Nat) :=
  if isOpp then rs else rs.reverse

/-- The pathological nonpositive-height case of a row-loop.  A normalized
height `h ≤ 0` is reachable only for the info-header height `-2^31` (whose
wrapping negation is itself); the Go loop condition `y != y1` then never
terminates normally.  Each iteration reads one row and then unpacks it, so
the first faulting unpack (its fault condition depends only on the width)
stops the loop; otherwise rows are consumed until the input runs out
(`io.ErrUnexpectedEOF`) or — given at least `2^31 + 1` full rows, since the
read at row `2^31` precedes the faulting pixel-buffer slice — the slice
expression faults. -/
def negHeightRows (stride : Nat) (up : List Nat → Except Err (List Nat))
    (input : List Nat) : Err :=
  if stride ≤ input.length then
    match up (input.take stride) with
    | .error e => e
    | .ok _ =>
      if 2 ^ 31 + 1 ≤ input.length / stride then .panicOOB
      else .truncatedRow
  else .truncatedRow

/-- `decode1` (lines 164-198): 1-bpp rows of stride `(w*1+31)/32*4` into an
`image.Paletted`. -/
def decode1 (w : Nat) (h : Int) (isOpp : Bool) (cs : List RGBA8)
    (input : List Nat) : Except Err Img :=
  let stride := (w * 1 + 31) / 32 * 4
  if h ≤ 0 then .error (negHeightRows stride (unpack1 w) input)
  else
    match readUnpackRows stride (unpack1 w) h.toNat input with
    | .error e => .error e
    | .ok rs => .ok (.paletted w h.toNat (arrangeRows isOpp rs) cs)

/-- `decode4` (lines 200-228): 4-bpp rows of stride `(w*4+31)/32*4` into an
`image.Paletted`. -/
def decode4 (w : Nat) (h : Int) (isOpp : Bool) (cs : List RGBA8)
    (input : List Nat) : Except Err Img :=
  let stride := (w * 4 + 31) / 32 * 4
  if h ≤ 0 then .error (negHeightRows stride (unpack4 w) input)
  else
    match readUnpackRows stride (unpack4 w) h.toNat input with
    | .error e => .error e
    | .ok rs => .ok (.paletted w h.toNat (arrangeRows isOpp rs) cs)

/-- `decode8` (lines 230-256): 8-bpp rows of stride `(w*8+31)/32*4` into an
`image.Paletted`. -/
def decode8 (w : Nat) (h : Int) (isOpp : Bool) (cs : List RGBA8)
    (input : List Nat) : Except Err Img :=
  let stride := (w * 8 + 31) / 32 * 4
  if h ≤ 0 then .error (negHeightRows stride (unpack8 w) input)
  else
    match readUnpackRows stride (unpack8 w) h.toNat input with
    | .error e => .error e
    | .ok rs => .ok (.paletted w h.toNat (arrangeRows isOpp rs) cs)

/-- `decode24` (lines 258-287): 24-bpp rows of stride `(w*3+3)&^3` into an
`image.RGBA` with alpha forced to 255. -/
def decode24 (w : Nat) (h : Int) (isOpp : Bool) (input : List Nat) :
    Except Err Img :=
  let stride := (w * 3 + 3) / 4 * 4
  if h ≤ 0 then .error (negHeightRows stride (unpack24 w) input)
  else
    match readUnpackRows stride (unpack24 w) h.toNat input with
    | .error e => .error e
    | .ok rs => .ok (.rgba w h.toNat (arrangeRows isOpp rs))

/-- `decode32` (lines 289-314): 32-bpp rows of stride `w*4` into an
`image.NRGBA`, alpha taken from the stream. -/
def decode32 (w : Nat) (h : Int) (isOpp : Bool) (input : List Nat) :
    Except Err Img :=
  let stride := w * 4
  if h ≤ 0 then .error (negHeightRows stride (unpack32 w) input)
  else
    match readUnpackRows stride (unpack32 w) h.toNat input with
    | .error e => .error e
    | .ok rs => .ok (.nrgba w h.toNat (arrangeRows isOpp rs))

/-- `decoder.decode` (lines 316-331): dispatch on the bit depth; every
depth without a case — 16 bpp among the depths `newDecoder` accepts —
falls through to the "bpp decode function isn't implemented" error (the
spec's `UnsupportedColorDepth`).  The palette type assertion
`d.config.ColorModel.(color.Palette)` of the 1/4/8 paths is a runtime
fault when the model is direct. -/
def decoderDecode (d : Decoder) (input : List Nat) : Except Err Img :=
  match d.bpp, d.model with
  | 1, .palette cs => decode1 d.width d.height d.isOpposite cs input
  | 1, .direct => .error .panicOOB
  | 4, .palette cs => decode4 d.width d.height d.isOpposite cs input
  | 4, .direct => .error .panicOOB
  | 8, .palette cs => decode8 d.width d.height d.isOpposite cs input
  | 8, .direct => .error .panicOOB
  | 24, _ => decode24 d.width d.height d.isOpposite input
  | 32, _ => decode32 d.width d.height d.isOpposite input
  | _, _ => .error .bppNotImplemented

/-- `bmp.Decode` (lines 333-346). -/
def bmpDecode (b : List Nat) : Except Err Img :=
  match newDecoder b with
  | .error e => .error e
  | .ok (d, rest) => decoderDecode d rest

/-! ## Compositor (`ico.go` `Decode`, lines 234-240) -/

/-- Image width. -/
def Img.width : Img → Nat
  | .paletted w _ _ _ => w
  | .rgba w _ _ => w
  | .nrgba w _ _ => w

/-- Image height. -/
def Img.height : Img → Nat
  | .paletted _ h _ _ => h
  | .rgba _ h _ => h
  | .nrgba _ h _ => h

/-- The 8-bit color of a pixel: palette lookup for `image.Paletted`
(`Palette[p.Pix[i]]`; an out-of-range index is a Go panic, modelled by the
zero default), stored bytes for `image.RGBA`/`image.NRGBA`. -/
def Img.rgba8At (im : Img) (x y : Nat) : RGBA8 :=
  match im with
  | .paletted _ _ rows pal => pal.getD ((rows.getD y []).getD x 0) ⟨0, 0, 0, 0⟩
  | .rgba _ _ rows =>
    let r := rows.getD y []
    ⟨r.getD (4 * x) 0, r.getD (4 * x + 1) 0, r.getD (4 * x + 2) 0,
     r.getD (4 * x + 3) 0⟩
  | .nrgba _ _ rows =>
    let r := rows.getD y []
    ⟨r.getD (4 * x) 0, r.getD (4 * x + 1) 0, r.getD (4 * x + 2) 0,
     r.getD (4 * x + 3) 0⟩

/-- The 16-bit `color.Color.RGBA()` value of a pixel: `color.RGBA`
multiplies each channel by 0x101; `color.NRGBA` additionally premultiplies
by alpha (`r*0x101*a/0xff`). -/
def Img.rgba64At (im : Img) (x y : Nat) : Nat × Nat × Nat × Nat :=
  let c := im.rgba8At x y
  match im with
  | .nrgba _ _ _ =>
    (c.r * 257 * c.a / 255, c.g * 257 * c.a / 255, c.b * 257 * c.a / 255,
     c.a * 257)
  | _ => (c.r * 257, c.g * 257, c.b * 257, c.a * 257)

/-- The final composite raster: `image.NewRGBA(xorImg.Bounds())`, rows top
to bottom, four bytes (R, G, B, A, premultiplied) per pixel. -/
structure RGBAImage where
  w : Nat
  h : Nat
  rows : List (List Nat)
deriving DecidableEq, Repr

/-- One composite pixel, as `draw.drawRGBA` computes it for `draw.Src`
with a mask: each 16-bit source channel is scaled by the mask's 16-bit
alpha (`s * ma / 0xffff`) and stored as `uint8(· >> 8)`. -/
def compositePix (xorI : Img) (mrows : List (List Nat)) (mpal : List RGBA8)
    (x y : Nat) : List Nat :=
  let s := xorI.rgba64At x y
  let ma := (mpal.getD ((mrows.getD y []).getD x 0) ⟨0, 0, 0, 0⟩).a * 257
  [s.1 * ma / 65535 / 256, s.2.1 * ma / 65535 / 256,
   s.2.2.1 * ma / 65535 / 256, s.2.2.2 * ma / 65535 / 256]

/-- The compositing step of `Decode` (`ico.go` lines 234-240): assert the
AND image is an `image.Paletted` (a runtime fault otherwise), overwrite its
palette entry 1 with the fully transparent color (a runtime fault when the
palette is shorter than 2 entries), then
`draw.DrawMask(img, img.Bounds(), xorImg, 0, 0, andImg, 0, 0, draw.Src)`:
the drawn rectangle is the intersection of the two bounds, and pixels of
the fresh RGBA buffer outside it stay zero. -/
def composeICO (xorI andI : Img) : Except Err RGBAImage :=
  match andI with
  | .paletted mw mh mrows mpal =>
    if mpal.length < 2 then .error .panicOOB
    else
      let mpal2 := mpal.set 1 ⟨0, 0, 0, 0⟩
      let w := xorI.width
      let h := xorI.height
      let rw := min w mw
      let rh := min h mh
      .ok ⟨w, h, (List.range h).map (fun y => (List.range w).flatMap (fun x =>
        if x < rw ∧ y < rh then compositePix xorI mrows mpal2 x y
        else [0, 0, 0, 0]))⟩
  | _ => .error .panicOOB

/-! ## Container decode (`ico.go`: `Decode`) -/

/-- One decoded frame: a composited BMP entry, or a PNG entry handed to
the external PNG decoder. -/
inductive OutImg where
  | composite (img : RGBAImage)
  | png (data : List Nat)
deriving DecidableEq, Repr

/-- The lower slice bound of entry `dir`'s payload within the working
buffer: `offset := v.ImageOffset - int32(headerSize+directorySize*len(ds))`
in wrapping `int32` arithmetic. -/
def entryLo (count : Nat) (dir : Directory) : Int :=
  wrap32 (toInt32 dir.imageOffset - (6 + 16 * count))

/-- The upper slice bound `offset + size`, also wrapping `int32`
arithmetic. -/
def entryHi (count : Nat) (dir : Directory) : Int :=
  wrap32 (entryLo count dir + toInt32 dir.bytesInRes)

/-- The guaranteed capacity of the working buffer.  `Decode` obtains `buf`
from `ioutil.ReadAll`, whose backing array is a `bytes.Buffer` started at
`bytes.MinRead = 512` bytes: its capacity is at least `max(len, 512)`, and
the slack between length and capacity is zero-filled (allocations are
zeroed and reads only write the bytes they report).  The exact capacity
beyond this minimum depends on how the buffer grew (reader chunking,
stdlib growth policy), so the model uses the guaranteed minimum; no
theorem below depends on the region beyond it. -/
def bufCap (buf : List Nat) : Nat := max buf.length 512

/-- The payload slice `buf[offset : offset+size]` as the program sees it:
byte `i` is the buffer byte at `offset+i`, which beyond the buffer's
length is the zero-filled slack of the backing array. -/
def locateData (buf : List Nat) (lo n : Nat) : List Nat :=
  (List.range n).map (fun i => buf.getD (lo + i) 0)

/-- The per-entry processing after the payload slice is taken (`ico.go`
lines 207-240): the PNG probe `data[1:4]` — a reslice bounded by the
backing capacity, reading the three bytes after the payload start from
the backing array — then the PNG collaborator (out of scope; kept as an
opaque `OutImg.png`) or the synthesize-and-decode path. -/
def dispatchPayload (buf : List Nat) (lo : Nat) (dir : Directory)
    (data : List Nat) : Except Err OutImg :=
  if bufCap buf < lo + 4 then .error .panicOOB
  else if buf.getD (lo + 1) 0 = 80 ∧ buf.getD (lo + 2) 0 = 78 ∧
          buf.getD (lo + 3) 0 = 71 then
    .ok (.png data)
  else
    match newBMPReader dir data with
    | .error e => .error e
    | .ok (xorS, andS) =>
      match bmpDecode xorS with
      | .error e => .error e
      | .ok xorImg =>
        match bmpDecode andS with
        | .error e => .error e
        | .ok andImg =>
          match composeICO xorImg andImg with
          | .error e => .error e
          | .ok img => .ok (.composite img)

/-- Decoding of one directory entry inside `Decode`'s loop (`ico.go` lines
202-240).  Go bounds the slice expression `buf[offset : offset+size]` by
the backing array's capacity, not the length: the slice faults only when
`0 ≤ offset ≤ offset+size ≤ cap(buf)` fails (capacity modelled by
`bufCap`), and a range ending past the length silently covers the
zero-filled slack. -/
def decodeEntry (count : Nat) (buf : List Nat) (dir : Directory) :
    Except Err OutImg :=
  let lo := entryLo count dir
  let hi := entryHi count dir
  if ¬(0 ≤ lo ∧ lo ≤ hi ∧ hi ≤ (bufCap buf : Int)) then .error .panicOOB
  else dispatchPayload buf lo.toNat dir (locateData buf lo.toNat (hi - lo).toNat)

/-- `Decode`'s loop over the directory entries: the first error aborts the
whole decode. -/
def decodeLoop (count : Nat) (buf : List Nat) :
    List Directory → Except Err (List OutImg)
  | [] => .ok []
  | dir :: ds =>
    match decodeEntry count buf dir with
    | .error e => .error e
    | .ok img =>
      match decodeLoop count buf ds with
      | .error e => .error e
      | .ok imgs => .ok (img :: imgs)

/-- `Decode` (`ico.go` lines 184-247): header, directory table, working
buffer (the bytes after the 6-byte header and the `16*count` directory
bytes), then one image per entry. -/
def Decode (input : List Nat) : Except Err (List OutImg) :=
  match readHeader input with
  | .error e => .error e
  | .ok h =>
    let count := (toInt16 h.count).toNat
    let ds := readDirsPure (input.drop 6) count
    let buf := input.drop (6 + 16 * count)
    decodeLoop count buf ds

/-! ## Spec-side formulas and pixel probes -/

/-- The spec's stride formula, written from its words
(`stride = ((width*bitDepth + 31) / 32) * 4`), for comparison with the
computation embedded in `xorSizeOf`. -/
def strideSpec (width bitDepth : Nat) : Nat := (width * bitDepth + 31) / 32 * 4

/-- The spec's XOR block size formula, written from its words
(`xorBlockSize = paletteSize + stride*height`, with
`paletteSize = colorsUsed*4`, or `(1 << bitDepth)*4` when `colorsUsed = 0`
and `bitDepth < 16`), for comparison with `xorSizeOf`. -/
def xorBlockSizeSpec (width height bitDepth colorsUsed : Nat) : Nat :=
  (if colorsUsed = 0 ∧ bitDepth < 16 then (1 <<< bitDepth) * 4
   else colorsUsed * 4) + strideSpec width bitDepth * height

/-- The four bytes of composite pixel `(x, y)` (R, G, B, A). -/
def pick4 (img : RGBAImage) (x y : Nat) : List Nat :=
  let r := img.rows.getD y []
  [r.getD (4 * x) 0, r.getD (4 * x + 1) 0, r.getD (4 * x + 2) 0,
   r.getD (4 * x + 3) 0]

/-! ## Concrete byte streams used by witnesses and counterexamples -/

/-- A directory entry declaring a 1×1 image, 32 bpp, 48 payload bytes at
absolute offset 22. -/
def dir1x1 : Directory := ⟨1, 1, 0, 0, 1, 32, 48, 22⟩

/-- A 48-byte non-PNG payload: a 40-byte info header (size 40, width 1,
height 2, planes 1, 32 bpp, compression 0), one XOR pixel B=10 G=20 R=30
A=128, and a 4-byte AND mask row of zero bits. -/
def payloadA : List Nat :=
  [40, 0, 0, 0, 1, 0, 0, 0, 2, 0, 0, 0, 1, 0, 32, 0] ++
    List.replicate 24 0 ++ [10, 20, 30, 128] ++ [0, 0, 0, 0]

/-- The same payload with XOR pixel B=40 G=80 R=120 A=200. -/
def payloadB : List Nat :=
  [40, 0, 0, 0, 1, 0, 0, 0, 2, 0, 0, 0, 1, 0, 32, 0] ++
    List.replicate 24 0 ++ [40, 80, 120, 200] ++ [0, 0, 0, 0]

/-- A full single-entry container around `payloadA`. -/
def containerA : List Nat :=
  [0, 0, 1, 0, 1, 0] ++
    [1, 1, 0, 0, 1, 0, 32, 0, 48, 0, 0, 0, 22, 0, 0, 0] ++ payloadA

/-- A full single-entry container around `payloadB`. -/
def containerB : List Nat :=
  [0, 0, 1, 0, 1, 0] ++
    [1, 1, 0, 0, 1, 0, 32, 0, 48, 0, 0, 0, 22, 0, 0, 0] ++ payloadB

/-- The XOR stream `newBMPReader` synthesizes from `dir1x1`/`payloadA`. -/
def xorStreamA : List Nat :=
  [66, 77, 58, 0, 0, 0, 0, 0, 0, 0, 54, 0, 0, 0, 40, 0, 0, 0, 1, 0, 0, 0,
   1, 0, 0, 0, 1, 0, 32, 0, 0, 0, 0, 0, 0, 0, 0, 0, 0, 0, 0, 0, 0, 0, 0, 0,
   0, 0, 0, 0, 0, 0, 0, 0, 10, 20, 30, 128]

/-- The AND stream `newBMPReader` synthesizes from `dir1x1`/`payloadA`. -/
def andStreamA : List Nat :=
  [66, 77, 66, 0, 0, 0, 0, 0, 0, 0, 62, 0, 0, 0, 40, 0, 0, 0, 1, 0, 0, 0,
   1, 0, 0, 0, 0, 0, 1, 0, 0, 0, 0, 0, 0, 0, 0, 0, 0, 0, 0, 0, 0, 0, 0, 0,
   0, 0, 0, 0, 0, 0, 0, 0, 0, 0, 0, 255, 255, 255, 255, 255, 0, 0, 0, 0]

/-- The XOR stream `newBMPReader` synthesizes from `dir1x1`/`payloadB`. -/
def xorStreamB : List Nat :=
  [66, 77, 58, 0, 0, 0, 0, 0, 0, 0, 54, 0, 0, 0, 40, 0, 0, 0, 1, 0, 0, 0,
   1, 0, 0, 0, 1, 0, 32, 0, 0, 0, 0, 0, 0, 0, 0, 0, 0, 0, 0, 0, 0, 0, 0, 0,
   0, 0, 0, 0, 0, 0, 0, 0, 40, 80, 120, 200]

/-- The info header parsed from `payloadA`/`payloadB`. -/
def ihA : InfoHeader := ⟨40, 1, 2, 1, 32, 0, 0, 0, 0, 0, 0⟩

/-- A single-entry container whose entry declares 100 payload bytes while
only 10 bytes follow the directory. -/
def shortContainerA : List Nat :=
  [0, 0, 1, 0, 1, 0] ++
    [1, 1, 0, 0, 1, 0, 32, 0, 100, 0, 0, 0, 22, 0, 0, 0] ++
    List.replicate 10 0

/-- A single-entry container whose entry declares 60 payload bytes while
only 20 bytes follow the directory. -/
def shortContainerB : List Nat :=
  [0, 0, 1, 0, 1, 0] ++
    [1, 1, 0, 0, 1, 0, 32, 0, 60, 0, 0, 0, 22, 0, 0, 0] ++
    List.replicate 20 0

/-- A bitmap stream whose info-header height field holds `0x80000000`
(`int32` value `-2^31`): 24 bpp, width 1, so `newDecoder` accepts it
without reading a palette. -/
def minHeightStream : List Nat :=
  [66, 77] ++ List.replicate 12 0 ++
    ([40, 0, 0, 0, 1, 0, 0, 0, 0, 0, 0, 128, 1, 0, 24, 0] ++
      List.replicate 24 0)

/-- A valid 8×2 1-bpp bottom-up bitmap stream: palette black/white, first
stored row `0xAA`, second stored row `0x55`. -/
def oneBppStream : List Nat :=
  [66, 77] ++ List.replicate 12 0 ++
    ([40, 0, 0, 0, 8, 0, 0, 0, 2, 0, 0, 0, 1, 0, 1, 0] ++
      List.replicate 24 0) ++
    [0, 0, 0, 255, 255, 255, 255, 255] ++ [170, 0, 0, 0] ++ [85, 0, 0, 0]

/-- A header-valid 16-bpp bitmap stream (width 1, height 1). -/
def sixteenBppStream : List Nat :=
  [66, 77] ++ List.replicate 12 0 ++
    ([40, 0, 0, 0, 1, 0, 0, 0, 1, 0, 0, 0, 1, 0, 16, 0] ++
      List.replicate 24 0)

/-- A 1-bpp stream of width 7 (height 1) with a full 4-byte pixel row:
the row-decode loop writes destination index 7 into a 7-byte row. -/
def width7Stream : List Nat :=
  [66, 77] ++ List.replicate 12 0 ++
    ([40, 0, 0, 0, 7, 0, 0, 0, 1, 0, 0, 0, 1, 0, 1, 0] ++
      List.replicate 24 0) ++
    [0, 0, 0, 255, 255, 255, 255, 255] ++ [255, 0, 0, 0]

/-- A 4-bpp stream of width 3 (height 1) with a full 4-byte pixel row and
its 16-entry default palette: the row-decode loop writes destination
index 3 into a 3-byte row. -/
def width3Stream : List Nat :=
  [66, 77] ++ List.replicate 12 0 ++
    ([40, 0, 0, 0, 3, 0, 0, 0, 1, 0, 0, 0, 1, 0, 4, 0] ++
      List.replicate 24 0) ++
    List.replicate 64 0 ++ [255, 0, 0, 0]

/-! ## Theorems -/

/-- Inversion helper: any decoder `newDecoder` accepts has a palette model
with bit depth 1/4/8 or the direct model with bit depth 16/24/32. -/
theorem newDecoder_shape (b : List Nat) (d : Decoder) (rest : List Nat)
    (h : newDecoder b = .ok (d, rest)) :
    (∃ cs, d.model = .palette cs ∧ (d.bpp = 1 ∨ d.bpp = 4 ∨ d.bpp = 8)) ∨
      (d.model = .direct ∧ (d.bpp = 16 ∨ d.bpp = 24 ∨ d.bpp = 32)) := by
  unfold newDecoder at h
  repeat' first
    | split at h
    | dsimp only at h
  any_goals solve | simp at h
  all_goals rw [Except.ok.injEq, Prod.mk.injEq] at h
  all_goals obtain ⟨hd, -⟩ := h
  all_goals subst hd
  all_goals first
    | exact .inl ⟨_, rfl, by assumption⟩
    | exact .inr ⟨rfl, by assumption⟩

/-- `wrap32` is the identity on the `int32` range. -/
theorem wrap32_eq_self (x : Int) (h1 : -(2 ^ 31) ≤ x) (h2 : x < 2 ^ 31) :
    wrap32 x = x := by
  unfold wrap32
  omega

/-- Inversion helper: the decoder fields `newDecoder` derives from an
accepted info header. -/
theorem newDecoder_fields (b : List Nat) (d : Decoder) (rest : List Nat)
    (ih : InfoHeader) (hih : ReadInfoHeader (b.drop 14) = .ok ih)
    (h : newDecoder b = .ok (d, rest)) :
    d.bpp = ih.bitCount ∧ d.isOpposite = decide (toInt32 ih.height < 0) ∧
      d.width = ih.width ∧
      d.height = (if toInt32 ih.height < 0 then wrap32 (-toInt32 ih.height)
                  else toInt32 ih.height) := by
  unfold newDecoder at h
  repeat' first
    | split at h
    | dsimp only at h
  any_goals solve | simp at h
  all_goals rw [Except.ok.injEq, Prod.mk.injEq] at h
  all_goals obtain ⟨hd, -⟩ := h
  all_goals subst hd
  all_goals simp_all
  all_goals split
  all_goals first
    | rfl
    | omega

/-- The first stored row a row-loop reads comes out of the unpacker
applied to the first `stride` input bytes, and heads the stored-row
list. -/
theorem readUnpackRows_head (stride : Nat)
    (up : List Nat → Except Err (List Nat)) (n : Nat) (input : List Nat)
    (rs : List (List Nat)) (h : readUnpackRows stride up (n + 1) input = .ok rs) :
    ∃ r, up (input.take stride) = .ok r ∧ rs.head? = some r := by
  unfold readUnpackRows at h
  split at h
  · simp at h
  · revert h
    match hup : up (input.take stride) with
    | .error e => simp
    | .ok r =>
      match hrs : readUnpackRows stride up n (input.drop stride) with
      | .error e => simp
      | .ok rs2 =>
        intro h
        rw [Except.ok.injEq] at h
        exact ⟨r, rfl, by subst h; rfl⟩

/-- C3: for every directory entry and info header, the XOR block size the
synthesizer computes equals the spec's formula `paletteSize + stride*height`
with `paletteSize = colorsUsed*4` (or `(1 << bitDepth)*4` when
`colorsUsed = 0` and `bitDepth < 16`), `stride = ((width*bitDepth+31)/32)*4`,
and width and height taken from the directory bytes with 0 meaning 256. -/
theorem c3_xor_block_size_formula (dir : Directory) (ih : InfoHeader) :
    xorSizeOf dir ih =
      xorBlockSizeSpec (if dir.width = 0 then 256 else dir.width)
        (if dir.height = 0 then 256 else dir.height) ih.bitCount ih.colorUsed := by
  unfold xorSizeOf xorBlockSizeSpec psizeOf strideSpec icoW icoH
  have h4 : ih.colorUsed * 4 = 0 ↔ ih.colorUsed = 0 := by omega
  have hsh : (1 <<< ih.bitCount) * 4 = 2 ^ ih.bitCount * 4 := by
    rw [Nat.shiftLeft_eq, one_mul]
  by_cases hc : ih.colorUsed = 0 <;> by_cases hb : ih.bitCount < 16 <;>
    simp [hc, hb, h4, hsh]

/-- C5: parsing the container header fails — with one of the two errors the
spec groups as `InvalidContainerHeader` — exactly when the parsed type
marker differs from 1 or the parsed entry count is nonpositive, and the
boundary inputs (count 0; markers 0 and 2) are all rejected while a
marker-1, count-1 header is accepted. -/
theorem c5_header_validation_iff (b : List Nat) :
    ((∃ e, readHeader b = .error e ∧ (e = .invalidType ∨ e = .invalidCount)) ↔
      (toInt16 (parsedHeader b).imageType ≠ 1 ∨
        toInt16 (parsedHeader b).count ≤ 0)) ∧
    readHeader [0, 0, 1, 0, 0, 0] = .error .invalidCount ∧
    readHeader [0, 0, 0, 0, 1, 0] = .error .invalidType ∧
    readHeader [0, 0, 2, 0, 1, 0] = .error .invalidType ∧
    readHeader [0, 0, 1, 0, 1, 0] = .ok ⟨0, 1, 1⟩ := by
  refine ⟨?_, by decide, by decide, by decide, by decide⟩
  unfold readHeader
  by_cases h1 : toInt16 (parsedHeader b).imageType ≠ 1
  · simp [h1]
  · by_cases h2 : toInt16 (parsedHeader b).count ≤ 0 <;> simp [h1, h2]

/-- Witness for C5 at the boundary inputs: count 0 and marker 2. -/
theorem c5_witness :
    readHeader [0, 0, 1, 0, 0, 0] = .error .invalidCount ∧
      readHeader [0, 0, 2, 0, 1, 0] = .error .invalidType :=
  ⟨(c5_header_validation_iff [0, 0, 1, 0, 0, 0]).2.1,
    (c5_header_validation_iff [0, 0, 2, 0, 1, 0]).2.2.2.1⟩

/-- C9: reading the directory table never reports an error: for every input
and entry count it returns `nil` as the error and a slice of exactly
`count` entries, and when the input holds fewer than `count*16` bytes
`binary.Read` decodes nothing, so every entry (in particular every unread
one) holds the zero value. -/
theorem c9_directory_read_total (b : List Nat) (size : Nat) :
    readDirectoris b size = .ok (readDirsPure b size) ∧
      (readDirsPure b size).length = size ∧
      (b.length < 16 * size →
        readDirsPure b size = List.replicate size zeroDir) := by
  refine ⟨rfl, ?_, fun h => by simp [readDirsPure, h]⟩
  unfold readDirsPure
  split <;> simp

/-- Witness for C9 at a concrete truncated input: 3 bytes cannot hold one
16-byte entry, and the returned single entry is the zero directory. -/
theorem c9_witness :
    [(1 : Nat), 2, 3].length < 16 * 1 ∧
      readDirsPure [1, 2, 3] 1 = List.replicate 1 zeroDir :=
  ⟨by decide, (c9_directory_read_total [1, 2, 3] 1).2.2 (by decide)⟩

/-- C10 evaluation: the per-row destination writes of `decode1` and
`decode4` are NOT always inside the `w`-byte row.  On a fully valid 1-bpp
stream of width 7 the first row decode writes index `8*((7+1)/8)-1 = 7`
into a 7-byte row, and on a valid 4-bpp stream of width 3 it writes index
`2*((3+1)/2)-1 = 3` into a 3-byte row: both decodes stop with the
index-out-of-range fault. -/
theorem c10_row_write_out_of_range :
    bmpDecode width7Stream = .error .panicOOB ∧
      bmpDecode width3Stream = .error .panicOOB ∧
      unpack1 7 [255, 0, 0, 0] = .error .panicOOB ∧
      unpack4 3 [255, 0, 0, 0] = .error .panicOOB := by
  refine ⟨by decide, by decide, by decide, by decide⟩

/-- C8: whenever `newDecoder` accepts a stream whose info header reports
bit depth 16, the selected color model is the direct one, and decoding the
pixel rows stops immediately with the unimplemented-bit-depth error (the
spec's `UnsupportedColorDepth`) for every row input — no 16-bit unpacking
exists. -/
theorem c8_bpp16_rejected_at_decode (b : List Nat) (d : Decoder)
    (rest : List Nat) (hok : newDecoder b = .ok (d, rest))
    (hbpp : d.bpp = 16) :
    d.model = .direct ∧
      ∀ input : List Nat, decoderDecode d input = .error .bppNotImplemented := by
  have hdirect : d.model = .direct := by
    rcases newDecoder_shape b d rest hok with ⟨cs, -, hdepths⟩ | ⟨hdir, -⟩
    · omega
    · exact hdir
  refine ⟨hdirect, fun input => ?_⟩
  obtain ⟨bpp, isOpp, wid, ht, model⟩ := d
  simp only [Decoder.bpp] at hbpp
  simp only [Decoder.model] at hdirect
  subst hbpp
  subst hdirect
  rfl

/-- C6 (amended): for every bitmap stream `newDecoder` accepts, row order
is top-down exactly when the info-header height field is negative, and the
height is normalized by wrapping 32-bit negation — the absolute value in
every case except `-2^31`, which stays `-2^31`; and for 1-bpp streams the
first stored pixel row becomes the image's bottom row by default and its
top row in the top-down case. -/
theorem c6_row_order_and_height (b : List Nat) (d : Decoder)
    (rest : List Nat) (ih : InfoHeader)
    (hih : ReadInfoHeader (b.drop 14) = .ok ih)
    (hok : newDecoder b = .ok (d, rest)) :
    (d.isOpposite = decide (toInt32 ih.height < 0) ∧
      (toInt32 ih.height ≠ -(2 ^ 31) → d.height = |toInt32 ih.height|) ∧
      (toInt32 ih.height = -(2 ^ 31) → d.height = -(2 ^ 31))) ∧
    ∀ cs input w hn rows r0,
      d.bpp = 1 → d.model = .palette cs →
      decoderDecode d input = .ok (.paletted w hn rows cs) →
      unpack1 d.width (input.take ((d.width * 1 + 31) / 32 * 4)) = .ok r0 →
      0 < hn →
      (if d.isOpposite then rows.head? else rows.getLast?) = some r0 := by
  obtain ⟨hbpp, hopp, hwid, hht⟩ := newDecoder_fields b d rest ih hih hok
  constructor
  · have hlow : toInt32 ih.height < 0 → -(2 ^ 31) ≤ toInt32 ih.height := by
      unfold toInt32
      split <;> omega
    refine ⟨hopp, fun hne => ?_, fun hmin => ?_⟩
    · rw [hht]
      split
      · rename_i hneg
        rw [wrap32_eq_self _ (by have := hlow hneg; omega)
            (by have := hlow hneg; omega), abs_of_neg hneg]
      · rename_i hpos
        rw [abs_of_nonneg (by omega)]
    · rw [hht, hmin, if_pos (by norm_num)]
      unfold wrap32
      norm_num
  · intro cs input w hn rows r0 hb1 hmodel hdec hup hpos
    obtain ⟨bpp, isOpp, wid, ht, model⟩ := d
    simp only [Decoder.bpp] at hb1
    simp only [Decoder.model] at hmodel
    simp only [Decoder.width] at hup
    simp only [Decoder.isOpposite]
    subst hb1
    subst hmodel
    have hdec1 : decode1 wid ht isOpp cs input = .ok (.paletted w hn rows cs) :=
      hdec
    unfold decode1 at hdec1
    split at hdec1
    · simp at hdec1
    · rename_i hht0
      simp only [Nat.mul_one] at hup hdec1
      revert hdec1
      match hrs : readUnpackRows ((wid + 31) / 32 * 4) (unpack1 wid)
          ht.toNat input with
      | .error e => simp
      | .ok rs =>
        intro hdec1
        rw [Except.ok.injEq, Img.paletted.injEq] at hdec1
        obtain ⟨-, hhn, hrows, -⟩ := hdec1
        obtain ⟨n, hn1⟩ : ∃ n, ht.toNat = n + 1 := ⟨ht.toNat - 1, by omega⟩
        rw [hn1] at hrs
        obtain ⟨r, hupr, hhead⟩ := readUnpackRows_head _ _ _ _ _ hrs
        have hr0 : r = r0 := by
          rw [hupr] at hup
          exact Except.ok.inj hup
        subst hr0
        rw [← hrows]
        unfold arrangeRows
        cases isOpp
        · simpa [List.getLast?_reverse] using hhead
        · simpa using hhead

/-- Counterexample for C6 as stated: a stream whose info-header height
field holds `0x80000000` (`int32` value `-2^31`) is accepted by the
decoder and recorded as top-down, but the normalized height is `-2^31`,
not the absolute value `2^31`. -/
theorem c6_cex_min_height_not_abs :
    ReadInfoHeader (minHeightStream.drop 14) =
        .ok ⟨40, 1, 2147483648, 1, 24, 0, 0, 0, 0, 0, 0⟩ ∧
      newDecoder minHeightStream =
        .ok (⟨24, true, 1, -(2 ^ 31), .direct⟩, []) ∧
      (⟨24, true, 1, -(2 ^ 31), .direct⟩ : Decoder).height ≠
        |toInt32 2147483648| := by
  refine ⟨by decide, by decide, by decide⟩

/-- Witness for C6 at a concrete bottom-up 8×2 1-bpp stream: the first
stored row (byte `0xAA`) ends up as the image's bottom (last) row. -/
theorem c6_witness :
    newDecoder oneBppStream =
        .ok (⟨1, false, 8, 2,
              .palette [⟨0, 0, 0, 255⟩, ⟨255, 255, 255, 255⟩]⟩,
             [170, 0, 0, 0, 85, 0, 0, 0]) ∧
      (if (⟨1, false, 8, 2,
            .palette [⟨0, 0, 0, 255⟩, ⟨255, 255, 255, 255⟩]⟩ : Decoder).isOpposite
       then [[0, 1, 0, 1, 0, 1, 0, 1], [1, 0, 1, 0, 1, 0, 1, 0]].head?
       else [[0, 1, 0, 1, 0, 1, 0, 1], [1, 0, 1, 0, 1, 0, 1, 0]].getLast?) =
        some [1, 0, 1, 0, 1, 0, 1, 0] :=
  ⟨by decide,
    (c6_row_order_and_height oneBppStream
        ⟨1, false, 8, 2, .palette [⟨0, 0, 0, 255⟩, ⟨255, 255, 255, 255⟩]⟩
        [170, 0, 0, 0, 85, 0, 0, 0] ⟨40, 8, 2, 1, 1, 0, 0, 0, 0, 0, 0⟩
        (by decide) (by decide)).2
      [⟨0, 0, 0, 255⟩, ⟨255, 255, 255, 255⟩] [170, 0, 0, 0, 85, 0, 0, 0]
      8 2 [[0, 1, 0, 1, 0, 1, 0, 1], [1, 0, 1, 0, 1, 0, 1, 0]]
      [1, 0, 1, 0, 1, 0, 1, 0] rfl rfl (by decide) (by decide) (by decide)⟩

/-- Every palette entry `newDecoder` constructs carries alpha 255. -/
theorem newDecoder_palette_full_alpha (b : List Nat) (d : Decoder)
    (rest : List Nat) (cs : List RGBA8) (h : newDecoder b = .ok (d, rest))
    (hm : d.model = .palette cs) : ∀ c ∈ cs, c.a = 255 := by
  unfold newDecoder at h
  repeat' first
    | split at h
    | dsimp only at h
  any_goals solve | simp at h
  all_goals rw [Except.ok.injEq, Prod.mk.injEq] at h
  all_goals obtain ⟨hd, -⟩ := h
  all_goals subst hd
  all_goals simp only [Decoder.model] at hm
  any_goals solve | simp at hm
  all_goals rw [ColorModel.palette.injEq] at hm
  all_goals subst hm
  all_goals intro c hc
  all_goals obtain ⟨i, -, hci⟩ := List.mem_map.mp hc
  all_goals rw [← hci]

/-- Every row a row-loop returns came out of the unpacker. -/
theorem readUnpackRows_mem (stride : Nat)
    (up : List Nat → Except Err (List Nat)) (n : Nat) (input : List Nat)
    (rs : List (List Nat)) (h : readUnpackRows stride up n input = .ok rs) :
    ∀ r ∈ rs, ∃ chunk, up chunk = .ok r := by
  induction n generalizing input rs with
  | zero =>
    unfold readUnpackRows at h
    rw [Except.ok.injEq] at h
    subst h
    simp
  | succ m ih =>
    unfold readUnpackRows at h
    split at h
    · simp at h
    · revert h
      match hup : up (input.take stride) with
      | .error e => simp
      | .ok r0 =>
        match hrs : readUnpackRows stride up m (input.drop stride) with
        | .error e => simp
        | .ok rs2 =>
          intro h
          rw [Except.ok.injEq] at h
          subst h
          intro r hr
          rcases List.mem_cons.mp hr with hr0 | hr2
          · exact ⟨input.take stride, by rw [hup, hr0]⟩
          · exact ih (input.drop stride) rs2 hrs r hr2

/-- Length of a `flatMap` over `List.range` with constant block length. -/
theorem flatMap_range_length {α : Type} (f : Nat → List α) (k n : Nat)
    (hf : ∀ i, (f i).length = k) :
    ((List.range n).flatMap f).length = n * k := by
  induction n with
  | zero => simp
  | succ m ih =>
    rw [List.range_succ, List.flatMap_append]
    simp [ih, hf, Nat.succ_mul]

/-- Indexing into a `flatMap` over `List.range` with constant block
length. -/
theorem flatMap_range_getD {α : Type} (f : Nat → List α) (k n : Nat)
    (hf : ∀ i, (f i).length = k) (x j : Nat) (dfl : α)
    (hx : x < n) (hj : j < k) :
    ((List.range n).flatMap f).getD (k * x + j) dfl = (f x).getD j dfl := by
  induction n with
  | zero => omega
  | succ m ih =>
    rw [List.range_succ, List.flatMap_append]
    rcases Nat.lt_or_ge x m with hxm | hxm
    · rw [List.getD_append _ _ _ _ ?_, ih hxm]
      rw [flatMap_range_length f k m hf]
      calc k * x + j < k * x + k := by omega
        _ = k * (x + 1) := by ring
        _ ≤ m * k := by
          have : x + 1 ≤ m := hxm
          calc k * (x + 1) ≤ k * m := by
                exact Nat.mul_le_mul_left k this
            _ = m * k := Nat.mul_comm k m
    · have hxe : x = m := by omega
      subst hxe
      have hlen : ((List.range x).flatMap f).length = x * k :=
        flatMap_range_length f k x hf
      rw [List.getD_append_right _ _ _ _ (by rw [hlen, Nat.mul_comm]; omega)]
      rw [hlen, Nat.mul_comm x k]
      have hsub : k * x + j - k * x = j := by omega
      rw [hsub]
      simp

/-- Indexing into a `map` over `List.range`. -/
theorem map_range_getD {α : Type} (g : Nat → α) (n y : Nat) (dfl : α)
    (h : y < n) : ((List.range n).map g).getD y dfl = g y := by
  rw [List.getD_eq_getElem?_getD, List.getElem?_map, List.getElem?_range h]
  rfl

/-- A composite pixel always spans four bytes. -/
theorem compositePix_length (xorI : Img) (mrows : List (List Nat))
    (mpal : List RGBA8) (x y : Nat) :
    (compositePix xorI mrows mpal x y).length = 4 := rfl

/-- The scale-by-full-mask-and-narrow step of `drawRGBA` is the identity
on a byte-sized 16-bit channel `v * 0x101`. -/
theorem chan_full_mask (v : Nat) (hv : v < 256) :
    v * 257 * 65535 / 65535 / 256 = v := by
  rw [Nat.mul_div_cancel _ (by norm_num)]
  rw [show v * 257 = v * 256 + v by ring]
  omega

/-- Serializing a parsed little-endian 32-bit field reproduces its four
source bytes. -/
theorem le32_rd32 (l : List Nat) (hl : 4 ≤ l.length)
    (hb : ∀ x ∈ l, x < 256) : le32 (rd32 l) = l.take 4 := by
  rcases l with _ | ⟨a, l⟩
  · simp at hl
  rcases l with _ | ⟨b, l⟩
  · simp at hl
  rcases l with _ | ⟨c, l⟩
  · simp at hl
  rcases l with _ | ⟨d, l⟩
  · simp at hl
  have ha := hb a (by simp)
  have hbb := hb b (by simp)
  have hc := hb c (by simp)
  have hd := hb d (by simp)
  simp only [le32, rd32, List.getD_cons_zero, List.getD_cons_succ,
    List.take_succ_cons, List.take_zero, List.cons.injEq, and_true]
  refine ⟨?_, ?_, ?_, ?_⟩ <;> omega

/-- Serializing a parsed little-endian 16-bit field reproduces its two
source bytes. -/
theorem le16_rd16 (l : List Nat) (hl : 2 ≤ l.length)
    (hb : ∀ x ∈ l, x < 256) : le16 (rd16 l) = l.take 2 := by
  rcases l with _ | ⟨a, l⟩
  · simp at hl
  rcases l with _ | ⟨b, l⟩
  · simp at hl
  have ha := hb a (by simp)
  have hbb := hb b (by simp)
  simp only [le16, rd16, List.getD_cons_zero, List.getD_cons_succ,
    List.take_succ_cons, List.take_zero, List.cons.injEq, and_true]
  refine ⟨?_, ?_⟩ <;> omega

/-- Splitting a `take` of a dropped suffix at an interior field
boundary. -/
theorem drop_take_split (l : List Nat) (a m n : Nat) :
    (l.drop a).take (m + n) = (l.drop a).take m ++ (l.drop (a + m)).take n := by
  rw [List.take_add, List.drop_drop]

/-- Inversion of `ReadInfoHeader`: a successfully parsed header is exactly
the eleven little-endian fields of the first 40 bytes. -/
theorem ReadInfoHeader_inv (b : List Nat) (ih : InfoHeader)
    (h : ReadInfoHeader b = .ok ih) :
    40 ≤ b.length ∧
      ih = ⟨rd32 b, rd32 (b.drop 4), rd32 (b.drop 8), rd16 (b.drop 12),
        rd16 (b.drop 14), rd32 (b.drop 16), rd32 (b.drop 20),
        rd32 (b.drop 24), rd32 (b.drop 28), rd32 (b.drop 32),
        rd32 (b.drop 36)⟩ := by
  unfold ReadInfoHeader at h
  split at h
  · simp at h
  · rename_i hlen
    dsimp only at h
    split at h
    · simp at h
    · split at h
      · simp at h
      · rw [Except.ok.injEq] at h
        exact ⟨by omega, h.symm⟩

/-- `color.Color.RGBA()` of a fully opaque pixel: every channel is the
8-bit value times 0x101 and the alpha is 0xffff, for all three raster
kinds. -/
theorem rgba64_full_alpha (im : Img) (x y : Nat)
    (ha : (im.rgba8At x y).a = 255) :
    im.rgba64At x y =
      ((im.rgba8At x y).r * 257, (im.rgba8At x y).g * 257,
       (im.rgba8At x y).b * 257, 65535) := by
  cases im with
  | paletted w h rows pal =>
    simp only [Img.rgba64At, Img.rgba8At] at *
    rw [ha]
  | rgba w h rows =>
    simp only [Img.rgba64At, Img.rgba8At] at *
    rw [ha]
  | nrgba w h rows =>
    simp only [Img.rgba64At, Img.rgba8At] at *
    rw [ha]
    simp only [Prod.mk.injEq]
    refine ⟨?_, ?_, ?_, by trivial⟩ <;>
      rw [Nat.mul_div_cancel _ (by norm_num : (0 : Nat) < 255)]

/-- `Decode`'s loop propagates the error of the first failing entry when
all earlier entries decode successfully. -/
theorem decodeLoop_error_at (count : Nat) (buf : List Nat)
    (ds : List Directory) (i : Nat) (e : Err) (hi : i < ds.length)
    (hprev : ∀ j, j < i → ∃ img, decodeEntry count buf (ds.getD j zeroDir) = .ok img)
    (herr : decodeEntry count buf (ds.getD i zeroDir) = .error e) :
    decodeLoop count buf ds = .error e := by
  induction ds generalizing i with
  | nil => simp at hi
  | cons d tl ih =>
    cases i with
    | zero =>
      simp only [List.getD_cons_zero] at herr
      unfold decodeLoop
      rw [herr]
    | succ k =>
      obtain ⟨img, himg⟩ := hprev 0 (Nat.succ_pos k)
      simp only [List.getD_cons_zero] at himg
      simp only [List.getD_cons_succ] at herr
      unfold decodeLoop
      rw [himg,
        ih k (by simpa using hi)
          (fun j hj => by
            have := hprev (j + 1) (by omega)
            simpa using this)
          herr]

/-- A payload range reaching past the buffer's length yields the buffer
suffix padded with the zero-filled slack of the backing array. -/
theorem locateData_pad (buf : List Nat) (lo n : Nat)
    (h : buf.length ≤ lo + n) :
    locateData buf lo n =
      buf.drop lo ++ List.replicate (n - (buf.length - lo)) 0 := by
  apply List.ext_getElem
  · simp [locateData]
    omega
  · intro i h1 h2
    have hlhs : (locateData buf lo n)[i] = buf.getD (lo + i) 0 := by
      simp [locateData]
    rw [hlhs]
    rcases Nat.lt_or_ge i (buf.length - lo) with hcase | hcase
    · rw [List.getElem_append_left (by simpa using hcase)]
      rw [List.getElem_drop]
      rw [List.getD_eq_getElem?_getD, List.getElem?_eq_getElem (by omega)]
      rfl
    · rw [List.getElem_append_right (by simpa using hcase)]
      rw [List.getElem_replicate]
      rw [List.getD_eq_default _ _ (by omega)]

/-- C4 (amended): when a directory entry's computed payload range starts
at a nonnegative offset and ends past the working buffer's length — yet
within the backing array's guaranteed capacity `max(len, 512)` — and
every earlier entry decodes, `Decode` does not fail with a
`TruncatedData` error at the payload-location step: the capacity-bounded
slice succeeds, the payload is the buffer suffix zero-padded to the
declared size (no byte outside the zero-filled backing array is read),
and decoding proceeds on it; whatever error that later processing
produces is what `Decode` returns. -/
theorem c4_slack_zero_fill (input : List Nat) (hdr : Header) (count : Nat)
    (ds : List Directory) (buf : List Nat) (i : Nat) (lo hi : Int)
    (h1 : readHeader input = .ok hdr)
    (hc : count = (toInt16 hdr.count).toNat)
    (hd : ds = readDirsPure (input.drop 6) count)
    (hb : buf = input.drop (6 + 16 * count))
    (hil : i < ds.length)
    (hprev : ∀ j, j < i →
      ∃ img, decodeEntry count buf (ds.getD j zeroDir) = .ok img)
    (hloe : lo = entryLo count (ds.getD i zeroDir))
    (hhie : hi = entryHi count (ds.getD i zeroDir))
    (hlo : 0 ≤ lo) (hlh : lo ≤ hi)
    (hexceed : (buf.length : Int) < hi)
    (hcap : hi ≤ (bufCap buf : Int)) :
    decodeEntry count buf (ds.getD i zeroDir) =
        dispatchPayload buf lo.toNat (ds.getD i zeroDir)
          (locateData buf lo.toNat (hi - lo).toNat) ∧
      locateData buf lo.toNat (hi - lo).toNat =
        buf.drop lo.toNat ++
          List.replicate ((hi - lo).toNat - (buf.length - lo.toNat)) 0 ∧
      ∀ e : Err,
        dispatchPayload buf lo.toNat (ds.getD i zeroDir)
          (locateData buf lo.toNat (hi - lo).toNat) = .error e →
        Decode input = .error e := by
  have hstep : decodeEntry count buf (ds.getD i zeroDir) =
      dispatchPayload buf lo.toNat (ds.getD i zeroDir)
        (locateData buf lo.toNat (hi - lo).toNat) := by
    unfold decodeEntry
    dsimp only
    rw [← hloe, ← hhie]
    rw [if_neg (not_not_intro ⟨hlo, hlh, hcap⟩)]
  refine ⟨hstep, locateData_pad buf lo.toNat (hi - lo).toNat (by omega), ?_⟩
  intro e he
  unfold Decode
  rw [h1]
  dsimp only
  rw [← hc, ← hd, ← hb]
  exact decodeLoop_error_at count buf ds i e hil hprev (by rw [hstep, he])

/-- Counterexample for C4 as stated: a container whose single entry
declares 100 payload bytes over a 10-byte working buffer does NOT make
`Decode` fail with a `TruncatedData` error: Go bounds the slice by the
backing array's capacity (at least 512 bytes here), so the slice
succeeds, the 90 missing bytes read as zero-filled slack, and the
all-zero info header then fails the bitmap width validation — `Decode`
returns the value-level invalid-width error. -/
theorem c4_cex_slack_not_truncated :
    ((shortContainerA.drop 22).length : Int) <
        entryHi 1 ⟨1, 1, 0, 0, 1, 32, 100, 22⟩ ∧
      Decode shortContainerA = .error .invalidWidth ∧
      Err.invalidWidth ≠ Err.truncatedRow ∧ Err.invalidWidth ≠ Err.eof :=
  ⟨by decide, by decide, by decide, by decide⟩

/-- Witness for C4 (amended) at a concrete container: the single entry
declares 60 payload bytes over a 20-byte buffer; the located payload is
the 20 buffer bytes plus 40 zero slack bytes, and `Decode` surfaces the
bitmap-layer invalid-width error, not a `TruncatedData` one. -/
theorem c4_witness_zero_fill :
    (List.replicate 20 (0 : Nat)).length < 60 ∧
      locateData (List.replicate 20 0) 0 60 =
        List.replicate 20 0 ++ List.replicate 40 0 ∧
      Decode shortContainerB = .error .invalidWidth :=
  have h := c4_slack_zero_fill shortContainerB ⟨0, 1, 1⟩ 1
    [⟨1, 1, 0, 0, 1, 32, 60, 22⟩] (List.replicate 20 0) 0 0 60
    (by decide) (by decide) (by decide) (by decide) (by decide)
    (fun j hj => absurd hj (Nat.not_lt_zero j))
    (by decide) (by decide) (by decide) (by decide) (by decide) (by decide)
  ⟨by decide, h.2.1.trans (by decide), h.2.2 .invalidWidth (by decide)⟩

/-- C7 (amended): the XOR-decoded image is fully opaque at the indexed
depths and at 24 bpp — every palette entry the decoder builds has alpha
255, and every pixel `decode24` produces has alpha byte 255 — but at
32 bpp the alpha is copied from the stream, so the composite's alpha is
not confined to {0, 255}. -/
theorem c7_opacity_by_depth :
    (∀ (b : List Nat) (d : Decoder) (rest : List Nat) (cs : List RGBA8),
        newDecoder b = .ok (d, rest) → d.model = .palette cs →
        ∀ c ∈ cs, c.a = 255) ∧
    ∀ (w : Nat) (h : Int) (isOpp : Bool) (input : List Nat)
      (w2 h2 : Nat) (rows : List (List Nat)),
      decode24 w h isOpp input = .ok (.rgba w2 h2 rows) →
      ∀ r ∈ rows, ∀ x, x < w → r.getD (4 * x + 3) 0 = 255 := by
  refine ⟨newDecoder_palette_full_alpha, ?_⟩
  intro w h isOpp input w2 h2 rows hdec r hr x hx
  unfold decode24 at hdec
  split at hdec
  · simp at hdec
  · dsimp only at hdec
    revert hdec
    match hrs : readUnpackRows ((w * 3 + 3) / 4 * 4) (unpack24 w)
        h.toNat input with
    | .error e => simp
    | .ok rs =>
      intro hdec
      rw [Except.ok.injEq, Img.rgba.injEq] at hdec
      obtain ⟨-, -, hrows⟩ := hdec
      have hmem : r ∈ rs := by
        rw [← hrows] at hr
        unfold arrangeRows at hr
        split at hr
        · exact hr
        · exact List.mem_reverse.mp hr
      obtain ⟨chunk, hchunk⟩ := readUnpackRows_mem _ _ _ _ _ hrs r hmem
      unfold unpack24 at hchunk
      rw [Except.ok.injEq] at hchunk
      rw [← hchunk]
      rw [flatMap_range_getD
        (fun j => [chunk.getD (3 * j + 2) 0, chunk.getD (3 * j + 1) 0,
          chunk.getD (3 * j) 0, 255]) 4 w (fun i => rfl) x 3 0 hx (by omega)]
      rfl

/-- Counterexample for C7 as stated: a container whose 32-bpp entry has
XOR alpha byte 200 decodes to a XOR image whose pixel is not fully opaque
(alpha 200), and the composite's alpha is 200, neither 0 nor 255. -/
theorem c7_cex_nonopaque_32bpp :
    newBMPReader dir1x1 payloadB = .ok (xorStreamB, andStreamA) ∧
      bmpDecode xorStreamB = .ok (.nrgba 1 1 [[120, 80, 40, 200]]) ∧
      ((Img.nrgba 1 1 [[120, 80, 40, 200]]).rgba8At 0 0).a = 200 ∧
      Decode containerB = .ok [.composite ⟨1, 1, [[94, 62, 31, 200]]⟩] ∧
      pick4 ⟨1, 1, [[94, 62, 31, 200]]⟩ 0 0 = [94, 62, 31, 200] ∧
      (200 : Nat) ≠ 0 ∧ (200 : Nat) ≠ 255 :=
  ⟨by decide, by decide, by decide, by decide, by decide, by decide, by decide⟩

/-- C2 (amended): for every successful composite of a XOR image with a
paletted AND mask whose entry 0 is opaque, a pixel whose mask palette
index is 1 comes out fully transparent (all four bytes 0), and a pixel
whose mask palette index is 0 retains the XOR color with alpha 255
whenever the XOR pixel is fully opaque (always the case except at 32 bpp,
where the stream's alpha is kept). -/
theorem c2_composite_pixels (xorI : Img) (mw mh : Nat)
    (mrows : List (List Nat)) (mpal : List RGBA8) (comp : RGBAImage)
    (x y : Nat)
    (hok : composeICO xorI (.paletted mw mh mrows mpal) = .ok comp)
    (hx : x < min xorI.width mw) (hy : y < min xorI.height mh)
    (hpal0 : (mpal.getD 0 ⟨0, 0, 0, 0⟩).a = 255) :
    ((mrows.getD y []).getD x 0 = 1 → pick4 comp x y = [0, 0, 0, 0]) ∧
      ((mrows.getD y []).getD x 0 = 0 → (xorI.rgba8At x y).a = 255 →
        (xorI.rgba8At x y).r < 256 → (xorI.rgba8At x y).g < 256 →
        (xorI.rgba8At x y).b < 256 →
        pick4 comp x y =
          [(xorI.rgba8At x y).r, (xorI.rgba8At x y).g, (xorI.rgba8At x y).b,
           255]) := by
  rw [show composeICO xorI (.paletted mw mh mrows mpal) =
      (if mpal.length < 2 then .error .panicOOB
       else .ok ⟨xorI.width, xorI.height,
         (List.range xorI.height).map (fun y => (List.range xorI.width).flatMap
           (fun x => if x < min xorI.width mw ∧ y < min xorI.height mh then
             compositePix xorI mrows (mpal.set 1 ⟨0, 0, 0, 0⟩) x y
           else [0, 0, 0, 0]))⟩) from rfl] at hok
  split at hok
  · simp at hok
  · rename_i hlen2
    rw [Except.ok.injEq] at hok
    subst hok
    have hxw : x < xorI.width := lt_of_lt_of_le hx (Nat.min_le_left _ _)
    have hyh : y < xorI.height := lt_of_lt_of_le hy (Nat.min_le_left _ _)
    have hrowy :
        ((List.range xorI.height).map (fun y => (List.range xorI.width).flatMap
          (fun x => if x < min xorI.width mw ∧ y < min xorI.height mh then
            compositePix xorI mrows (mpal.set 1 ⟨0, 0, 0, 0⟩) x y
          else [0, 0, 0, 0]))).getD y [] =
          (List.range xorI.width).flatMap
            (fun x => if x < min xorI.width mw ∧ y < min xorI.height mh then
              compositePix xorI mrows (mpal.set 1 ⟨0, 0, 0, 0⟩) x y
            else [0, 0, 0, 0]) :=
      map_range_getD _ _ _ _ hyh
    have hfl : ∀ i, ((fun x => if x < min xorI.width mw ∧
        y < min xorI.height mh then
          compositePix xorI mrows (mpal.set 1 ⟨0, 0, 0, 0⟩) x y
        else [0, 0, 0, 0]) i).length = 4 := by
      intro i
      dsimp only
      split
      · exact compositePix_length _ _ _ _ _
      · rfl
    have hb : ∀ j, j < 4 →
        ((List.range xorI.width).flatMap
          (fun x => if x < min xorI.width mw ∧ y < min xorI.height mh then
            compositePix xorI mrows (mpal.set 1 ⟨0, 0, 0, 0⟩) x y
          else [0, 0, 0, 0])).getD (4 * x + j) 0 =
          (compositePix xorI mrows (mpal.set 1 ⟨0, 0, 0, 0⟩) x y).getD j 0 := by
      intro j hj
      rw [flatMap_range_getD _ 4 xorI.width hfl x j 0 hxw hj]
      rw [if_pos ⟨hx, hy⟩]
    have hpick : pick4 ⟨xorI.width, xorI.height,
        (List.range xorI.height).map (fun y => (List.range xorI.width).flatMap
          (fun x => if x < min xorI.width mw ∧ y < min xorI.height mh then
            compositePix xorI mrows (mpal.set 1 ⟨0, 0, 0, 0⟩) x y
          else [0, 0, 0, 0]))⟩ x y =
        [(compositePix xorI mrows (mpal.set 1 ⟨0, 0, 0, 0⟩) x y).getD 0 0,
         (compositePix xorI mrows (mpal.set 1 ⟨0, 0, 0, 0⟩) x y).getD 1 0,
         (compositePix xorI mrows (mpal.set 1 ⟨0, 0, 0, 0⟩) x y).getD 2 0,
         (compositePix xorI mrows (mpal.set 1 ⟨0, 0, 0, 0⟩) x y).getD 3 0] := by
      unfold pick4
      dsimp only
      rw [hrowy]
      have h0 := hb 0 (by norm_num)
      have h1 := hb 1 (by norm_num)
      have h2 := hb 2 (by norm_num)
      have h3 := hb 3 (by norm_num)
      rw [Nat.add_zero] at h0
      rw [h0, h1, h2, h3]
    constructor
    · intro hm1
      rw [hpick]
      have hma : ((mpal.set 1 ⟨0, 0, 0, 0⟩).getD
          ((mrows.getD y []).getD x 0) ⟨0, 0, 0, 0⟩).a = 0 := by
        rw [hm1, List.getD_eq_getElem?_getD,
          List.getElem?_set_self (by omega)]
        rfl
      unfold compositePix
      rw [hma]
      norm_num
    · intro hm0 ha hr hg hbl
      rw [hpick]
      have hma : ((mpal.set 1 ⟨0, 0, 0, 0⟩).getD
          ((mrows.getD y []).getD x 0) ⟨0, 0, 0, 0⟩).a = 255 := by
        rw [hm0, List.getD_eq_getElem?_getD,
          List.getElem?_set_ne (by norm_num), ← List.getD_eq_getElem?_getD]
        exact hpal0
      unfold compositePix
      rw [hma, rgba64_full_alpha xorI x y ha]
      dsimp only
      simp only [List.cons.injEq, and_true]
      exact ⟨chan_full_mask _ hr, chan_full_mask _ hg, chan_full_mask _ hbl,
        by norm_num⟩

/-- C1: for every directory entry and byte payload whose info header
parses (the non-PNG path) and whose XOR block fits the payload, the
synthesized XOR stream is exactly: the 14-byte file header — "BM", total
size `14 + infoHeaderSize + xorBlockSize`, two zero reserved fields,
pixel-data offset `14 + infoHeaderSize + paletteSize` — followed by the
payload's original 40 info-header bytes with the height field replaced by
`height/2` (truncating signed division), followed by the next
`xorBlockSize` payload bytes (palette and XOR pixels) verbatim. -/
theorem c1_xor_stream_layout (dir : Directory) (data : List Nat)
    (ih : InfoHeader) (xorS andS : List Nat)
    (hih : ReadInfoHeader data = .ok ih)
    (hbytes : ∀ x ∈ data, x < 256)
    (hfit : xorSizeOf dir ih ≤ data.length - 40)
    (hok : newBMPReader dir data = .ok (xorS, andS)) :
    xorS = [66, 77] ++ le32 (14 + ih.size + xorSizeOf dir ih) ++ [0, 0, 0, 0]
      ++ le32 (14 + ih.size + psizeOf ih)
      ++ (data.take 8 ++ le32 (halfHeightRaw ih.height)
          ++ (data.drop 12).take 28)
      ++ (data.drop 40).take (xorSizeOf dir ih) := by
  obtain ⟨hlen, hfields⟩ := ReadInfoHeader_inv data ih hih
  have hdb : ∀ k : Nat, ∀ x ∈ data.drop k, x < 256 :=
    fun k x hx => hbytes x (List.mem_of_mem_drop hx)
  unfold newBMPReader at hok
  rw [hih] at hok
  dsimp only at hok
  rw [if_neg (by rw [List.length_drop]; omega)] at hok
  rw [Except.ok.injEq, Prod.mk.injEq] at hok
  obtain ⟨hxor, -⟩ := hok
  subst hxor
  have b1 : le32 (rd32 data) = data.take 4 := le32_rd32 data (by omega) hbytes
  have b2 : le32 (rd32 (data.drop 4)) = (data.drop 4).take 4 :=
    le32_rd32 _ (by rw [List.length_drop]; omega) (hdb 4)
  have b4 : le16 (rd16 (data.drop 12)) = (data.drop 12).take 2 :=
    le16_rd16 _ (by rw [List.length_drop]; omega) (hdb 12)
  have b5 : le16 (rd16 (data.drop 14)) = (data.drop 14).take 2 :=
    le16_rd16 _ (by rw [List.length_drop]; omega) (hdb 14)
  have b6 : le32 (rd32 (data.drop 16)) = (data.drop 16).take 4 :=
    le32_rd32 _ (by rw [List.length_drop]; omega) (hdb 16)
  have b7 : le32 (rd32 (data.drop 20)) = (data.drop 20).take 4 :=
    le32_rd32 _ (by rw [List.length_drop]; omega) (hdb 20)
  have b8 : le32 (rd32 (data.drop 24)) = (data.drop 24).take 4 :=
    le32_rd32 _ (by rw [List.length_drop]; omega) (hdb 24)
  have b9 : le32 (rd32 (data.drop 28)) = (data.drop 28).take 4 :=
    le32_rd32 _ (by rw [List.length_drop]; omega) (hdb 28)
  have b10 : le32 (rd32 (data.drop 32)) = (data.drop 32).take 4 :=
    le32_rd32 _ (by rw [List.length_drop]; omega) (hdb 32)
  have b11 : le32 (rd32 (data.drop 36)) = (data.drop 36).take 4 :=
    le32_rd32 _ (by rw [List.length_drop]; omega) (hdb 36)
  have s0 : data.take 8 = data.take 4 ++ (data.drop 4).take 4 := by
    simpa using List.take_add data 4 4
  have s1 : (data.drop 12).take 28 =
      (data.drop 12).take 2 ++ (data.drop 14).take 26 := by
    simpa using drop_take_split data 12 2 26
  have s2 : (data.drop 14).take 26 =
      (data.drop 14).take 2 ++ (data.drop 16).take 24 := by
    simpa using drop_take_split data 14 2 24
  have s3 : (data.drop 16).take 24 =
      (data.drop 16).take 4 ++ (data.drop 20).take 20 := by
    simpa using drop_take_split data 16 4 20
  have s4 : (data.drop 20).take 20 =
      (data.drop 20).take 4 ++ (data.drop 24).take 16 := by
    simpa using drop_take_split data 20 4 16
  have s5 : (data.drop 24).take 16 =
      (data.drop 24).take 4 ++ (data.drop 28).take 12 := by
    simpa using drop_take_split data 24 4 12
  have s6 : (data.drop 28).take 12 =
      (data.drop 28).take 4 ++ (data.drop 32).take 8 := by
    simpa using drop_take_split data 28 4 8
  have s7 : (data.drop 32).take 8 =
      (data.drop 32).take 4 ++ (data.drop 36).take 4 := by
    simpa using drop_take_split data 32 4 4
  rw [hfields]
  dsimp only
  rw [s0, s1, s2, s3, s4, s5, s6, s7, b1, b2, b4, b5, b6, b7, b8, b9, b10,
    b11]
  simp [List.append_assoc, le16]

/-- Witness for C1 at the concrete entry `dir1x1`/`payloadA`. -/
theorem c1_witness :
    ReadInfoHeader payloadA = .ok ihA ∧
      (∀ x ∈ payloadA, x < 256) ∧
      xorSizeOf dir1x1 ihA ≤ payloadA.length - 40 ∧
      newBMPReader dir1x1 payloadA = .ok (xorStreamA, andStreamA) ∧
      xorStreamA = [66, 77] ++ le32 (14 + ihA.size + xorSizeOf dir1x1 ihA)
        ++ [0, 0, 0, 0] ++ le32 (14 + ihA.size + psizeOf ihA)
        ++ (payloadA.take 8 ++ le32 (halfHeightRaw ihA.height)
            ++ (payloadA.drop 12).take 28)
        ++ (payloadA.drop 40).take (xorSizeOf dir1x1 ihA) :=
  ⟨by decide, by decide, by decide, by decide,
    c1_xor_stream_layout dir1x1 payloadA ihA xorStreamA andStreamA
      (by decide) (by decide) (by decide) (by decide)⟩

/-- Counterexample for C2 as stated: in `containerA` the single entry's
mask palette index at pixel (0,0) is 0, yet the composite pixel is
[15, 10, 5, 128] — premultiplied, with alpha 128, not the XOR color
(R=30, G=20, B=10) with alpha 255: the XOR pixel's 32-bpp alpha byte 128
is kept. -/
theorem c2_cex_mask0_alpha_not_255 :
    newBMPReader dir1x1 payloadA = .ok (xorStreamA, andStreamA) ∧
      bmpDecode xorStreamA = .ok (.nrgba 1 1 [[30, 20, 10, 128]]) ∧
      bmpDecode andStreamA =
        .ok (.paletted 1 1 [[0]] [⟨0, 0, 0, 255⟩, ⟨255, 255, 255, 255⟩]) ∧
      (([[(0 : Nat)]].getD 0 []).getD 0 0 = 0) ∧
      Decode containerA = .ok [.composite ⟨1, 1, [[15, 10, 5, 128]]⟩] ∧
      pick4 ⟨1, 1, [[15, 10, 5, 128]]⟩ 0 0 = [15, 10, 5, 128] ∧
      (128 : Nat) ≠ 255 :=
  ⟨by decide, by decide, by decide, by decide, by decide, by decide,
    by decide⟩

/-- Witness for C2 (amended) at a concrete opaque XOR pixel and
mask-index-0 mask: the composite retains the XOR color with alpha 255. -/
theorem c2_witness :
    composeICO (.nrgba 1 1 [[5, 6, 7, 255]])
        (.paletted 1 1 [[0]] [⟨0, 0, 0, 255⟩, ⟨255, 255, 255, 255⟩]) =
      .ok ⟨1, 1, [[5, 6, 7, 255]]⟩ ∧
      pick4 ⟨1, 1, [[5, 6, 7, 255]]⟩ 0 0 = [5, 6, 7, 255] :=
  ⟨by decide,
    by
      have h := (c2_composite_pixels (.nrgba 1 1 [[5, 6, 7, 255]]) 1 1 [[0]]
        [⟨0, 0, 0, 255⟩, ⟨255, 255, 255, 255⟩] ⟨1, 1, [[5, 6, 7, 255]]⟩ 0 0
        (by decide) (by decide) (by decide) (by decide)).2
        (by decide) (by decide) (by decide) (by decide) (by decide)
      exact h.trans (by decide)⟩

/-- Witness for C7 (amended) at concrete inputs: the 1-bpp palette of
`oneBppStream` is fully opaque, and a 1×1 24-bpp row decode yields alpha
byte 255. -/
theorem c7_witness :
    newDecoder oneBppStream =
        .ok (⟨1, false, 8, 2,
              .palette [⟨0, 0, 0, 255⟩, ⟨255, 255, 255, 255⟩]⟩,
             [170, 0, 0, 0, 85, 0, 0, 0]) ∧
      (∀ c ∈ [(⟨0, 0, 0, 255⟩ : RGBA8), ⟨255, 255, 255, 255⟩], c.a = 255) ∧
      decode24 1 1 false [1, 2, 3, 0] = .ok (.rgba 1 1 [[3, 2, 1, 255]]) ∧
      [3, 2, 1, 255].getD (4 * 0 + 3) 0 = 255 :=
  ⟨by decide,
    c7_opacity_by_depth.1 oneBppStream
      ⟨1, false, 8, 2, .palette [⟨0, 0, 0, 255⟩, ⟨255, 255, 255, 255⟩]⟩
      [170, 0, 0, 0, 85, 0, 0, 0] [⟨0, 0, 0, 255⟩, ⟨255, 255, 255, 255⟩]
      (by decide) rfl,
    by decide,
    c7_opacity_by_depth.2 1 1 false [1, 2, 3, 0] 1 1 [[3, 2, 1, 255]]
      (by decide) [3, 2, 1, 255] (by decide) 0 (by decide)⟩

/-- Witness for C8 at a concrete 16-bpp stream. -/
theorem c8_witness :
    newDecoder sixteenBppStream =
        .ok (⟨16, false, 1, 1, .direct⟩, []) ∧
      (⟨16, false, 1, 1, .direct⟩ : Decoder).model = .direct ∧
      decoderDecode ⟨16, false, 1, 1, .direct⟩ [] =
        .error .bppNotImplemented := by
  have h := c8_bpp16_rejected_at_decode sixteenBppStream
    ⟨16, false, 1, 1, .direct⟩ [] (by decide) rfl
  exact ⟨by decide, h.1, h.2 []⟩

end GoIco
